import Mathlib

set_option maxHeartbeats 1000000

/-
Shallow embedding of the payments controller of ilp-kit
(PaymentsControllerFactory in api/src/controllers/payments.js, provided under
src/): the payment-history read (getHistory), the quote action (quote), the
conditional-transfer execution (putResource) and the receiver request-setup
(setup), together with the Payment rows they read and write.

Collaborators that the controller calls but whose code is not under src/
(the Payment model, spsp, utils, five-bells-shared request validation) are
modelled from the spec; each such definition carries a doc comment starting
with "Modelled from the spec:".
-/

/-- Payment lifecycle states stored in the state column of a Payment row. -/
inductive PaymentState
  | pending
  | success
  | failed
deriving DecidableEq

/-- A Payment row as read and written by the controller. The fields mirror the
columns touched by putResource and setup; a value of none models a column the
row does not carry (NULL). -/
structure PaymentRow where
  id : Option String
  source_user : Option Nat
  source_account : Option String
  destination_user : Option Nat
  destination_account : Option String
  source_amount : Option String
  destination_amount : Option String
  transfer : Option String
  message : Option String
  execution_condition : Option String
  state : Option PaymentState
deriving DecidableEq

/-- A freshly constructed Payment model instance (new Payment()): every column
unset. -/
def PaymentRow.empty : PaymentRow :=
  ⟨none, none, none, none, none, none, none, none, none, none, none⟩

/-- Merge of one submitted column value into an existing one: a supplied value
overrides, an absent one leaves the stored value unchanged. -/
def overrideField {α : Type} (sub old : Option α) : Option α :=
  match sub with
  | some v => some v
  | none => old

/-- Modelled from the spec: setDataExternal comes from the Payment model
(api/src/models/payment.js, not under src/). The spec describes the write path
as an upsert that updates the existing row in place (merge, not
overwrite-and-lose), so the submitted candidate field set overrides exactly
the columns it supplies and leaves the remaining columns of the row
unchanged. -/
def setDataExternal (r d : PaymentRow) : PaymentRow :=
  ⟨overrideField d.id r.id,
   overrideField d.source_user r.source_user,
   overrideField d.source_account r.source_account,
   overrideField d.destination_user r.destination_user,
   overrideField d.destination_account r.destination_account,
   overrideField d.source_amount r.source_amount,
   overrideField d.destination_amount r.destination_amount,
   overrideField d.transfer r.transfer,
   overrideField d.message r.message,
   overrideField d.execution_condition r.execution_condition,
   overrideField d.state r.state⟩

/-- Does a row carry the given execution condition (the where clause of
Payment.findOne in putResource)? -/
def matchesCond (c : String) (r : PaymentRow) : Bool :=
  r.execution_condition == some c

/-- Payment.findOne with a where clause on execution_condition. -/
def findOne (db : List PaymentRow) (c : String) : Option PaymentRow :=
  db.find? (matchesCond c)

/-- Saving a found model instance: the first row carrying the condition is
replaced by its updated value, every other row is untouched. -/
def updateFirst (db : List PaymentRow) (c : String) (f : PaymentRow → PaymentRow) :
    List PaymentRow :=
  match db with
  | [] => []
  | r :: rest => if matchesCond c r then f r :: rest else r :: updateFirst rest c f

/-- Number of rows of the database carrying a given execution condition. -/
def countCond (db : List PaymentRow) (c : String) : Nat :=
  (db.filter (matchesCond c)).length

def isHexDigit (c : Char) : Bool :=
  c.isDigit || (('a' ≤ c) && (c ≤ 'f')) || (('A' ≤ c) && (c ≤ 'F'))

/-- Modelled from the spec: request.validateUriParameter(.., 'Uuid') comes from
five-bells-shared (not under src/); it accepts exactly the 8-4-4-4-12
hexadecimal UUID syntax, case-insensitively. -/
def isUuid (s : String) : Bool :=
  let cs := s.toList
  cs.length == 36 &&
    (List.range 36).all (fun i =>
      if i == 8 || i == 13 || i == 18 || i == 23 then cs.getD i ' ' == '-'
      else isHexDigit (cs.getD i ' '))

/-- Result of spsp.pay as consumed by putResource: the transfer uuid and the
execution condition the transfer resolved to. -/
structure PayResult where
  uuid : String
  executionCondition : String
deriving DecidableEq

/-- Observable events of one payment-execution request, in the order they are
performed. -/
inductive Ev
  | prepare
  | fulfill
  | upsert
  | notify
deriving DecidableEq

/-- Modelled from the spec: spsp.pay (lib/spsp, not under src/) performs the
two-phase conditional transfer, prepare then fulfill; when it returns
successfully both phases have completed in that order. -/
def payTraceSuccess : List Ev := [Ev.prepare, Ev.fulfill]

/-- Modelled from the spec: a failed spsp.pay stopped during or after prepare,
before fulfill completed. -/
def payTraceFailed : List Ev := [Ev.prepare]

/-- Request body of PUT /payments/:id as read by putResource. -/
structure PutBody where
  id : Option String
  source_user : Option Nat
  sourceAmount : Option String
  destinationAmount : Option String
  message : Option String
  destination : Option String
deriving DecidableEq

/-- The body object after putResource assigns the validated, lowercased id and
the session user id onto it (payment.id = id; payment.source_user =
this.req.user.id). -/
def bodyWithAuth (b : PutBody) (lowId : String) (su : Nat) : PutBody :=
  { b with id := some lowId, source_user := some su }

/-- Candidate field set putResource submits via setDataExternal: exactly the
keys of the object literal in the source (the id column is not among them). -/
def execFields (su : Nat) (destAccountUri : String)
    (sourceAmount destinationAmount message : Option String)
    (transferUuid cond : String) : PaymentRow :=
  ⟨none, some su, none, none, some destAccountUri, sourceAmount,
   destinationAmount, some transferUuid, message, some cond,
   some PaymentState.success⟩

/-- Database effect of putResource: look up an existing Payment with the
transfer's execution condition; update it in place when found, insert a fresh
row otherwise. -/
def execDb (db : List PaymentRow) (fields : PaymentRow) (c : String) :
    List PaymentRow :=
  match findOne db c with
  | some _ => updateFirst db c (fun r => setDataExternal r fields)
  | none => db ++ [setDataExternal PaymentRow.empty fields]

/-- The dbPayment instance after save, as handed to the socket publish. -/
def execSaved (db : List PaymentRow) (fields : PaymentRow) (c : String) :
    PaymentRow :=
  match findOne db c with
  | some r => setDataExternal r fields
  | none => setDataExternal PaymentRow.empty fields

/-- Result of one putResource request: the final database, the explicitly set
status, the payload handed to the socket publish, the event trace, and whether
an error escaped the handler. -/
structure ExecResult where
  db : List PaymentRow
  status : Option Nat
  published : Option PaymentRow
  trace : List Ev
  threw : Bool

/-- The putResource controller action. The resolved destination account URI
(utils.parseDestination, not under src/) and the outcome of spsp.pay (none
models a pay failure) are inputs. -/
def putResourceAction (db : List PaymentRow) (su : Nat) (rawId : String)
    (b : PutBody) (destAccountUri : String) (payOutcome : Option PayResult) :
    ExecResult :=
  if isUuid rawId then
    let lowId := rawId.toLower
    let b1 := bodyWithAuth b lowId su
    match payOutcome with
    | none => ⟨db, none, none, payTraceFailed, true⟩
    | some tr =>
      let fields := execFields su destAccountUri b1.sourceAmount
        b1.destinationAmount b1.message tr.uuid tr.executionCondition
      ⟨execDb db fields tr.executionCondition, some 200,
       some (execSaved db fields tr.executionCondition),
       payTraceSuccess ++ [Ev.upsert, Ev.notify], false⟩
  else ⟨db, none, none, [], true⟩

/-- A wallet user row as looked up by setup (User.findOne on username). -/
structure User where
  id : Nat
  username : String
deriving DecidableEq

/-- Modelled from the spec: spsp.createRequest (lib/spsp, not under src/)
generates a fresh condition/fulfillment pair; the fresh condition is passed in
as a parameter and returned to the caller in this payload. -/
structure PaymentParams where
  condition : String
deriving DecidableEq

/-- Request body of POST /receivers/:username as read by setup. -/
structure SetupBody where
  sender_identifier : Option String
  memo : Option String
  amount : Option String
deriving DecidableEq

/-- Result of one setup request: final database, explicitly set status,
response body, and whether an error escaped the handler. -/
structure SetupResult where
  db : List PaymentRow
  status : Option Nat
  body : Option PaymentParams
  threw : Bool
deriving DecidableEq

/-- Candidate field set the setup path submits for the pending Payment row:
exactly the keys of paymentObj in the source. -/
def setupFields (senderIdentifier : Option String) (destUid : Nat)
    (amount memo : Option String) (cond : String) : PaymentRow :=
  ⟨none, none, senderIdentifier, some destUid, none, none, amount, none, memo,
   some cond, some PaymentState.pending⟩

/-- The setup controller action. When the destination username is unknown it
returns 404 at once; otherwise it builds the pending row and persists it, and
a failing payment.create is caught and only logged: the body stays unset and
no error escapes (createFails models whether payment.create throws). -/
def setupAction (db : List PaymentRow) (users : List User) (username : String)
    (b : SetupBody) (freshCond : String) (createFails : Bool) : SetupResult :=
  match users.find? (fun u => u.username == username) with
  | none => ⟨db, some 404, none, false⟩
  | some u =>
    let row := setDataExternal PaymentRow.empty
      (setupFields b.sender_identifier u.id b.amount b.memo freshCond)
    if createFails then ⟨db, none, none, false⟩
    else ⟨db ++ [row], none, some ⟨freshCond⟩, false⟩

/-- An operation that writes Payment rows: a putResource execution or a setup
request. -/
inductive Op
  | exec (su : Nat) (rawId : String) (b : PutBody) (destAccountUri : String)
      (payOutcome : Option PayResult)
  | setup (users : List User) (username : String) (b : SetupBody)
      (freshCond : String) (createFails : Bool)

/-- Database effect of one operation. -/
def applyOp (db : List PaymentRow) (op : Op) : List PaymentRow :=
  match op with
  | Op.exec su rawId b dest payo => (putResourceAction db su rawId b dest payo).db
  | Op.setup users username b fc cf => (setupAction db users username b fc cf).db

/-- Classification of a resolved destination. -/
inductive DestinationType
  | LOCAL
  | REMOTE
deriving DecidableEq

/-- A quote as returned to the caller. -/
structure Quote where
  sourceAmount : String
  destinationAmount : String
deriving DecidableEq

/-- Failure modes of the quote path. -/
inductive QuoteError
  | InvalidQuoteRequestError
  | QuoteUnavailableError
deriving DecidableEq

/-- Modelled from the spec: spsp.quote (lib/spsp, not under src/). Exactly one
of the amounts must be supplied; supplying both or neither fails with
InvalidQuoteRequestError. A LOCAL destination quotes identity; a REMOTE
destination asks the remote quoting endpoint (the two function parameters) for
the counterpart amount, whose unavailability fails with
QuoteUnavailableError. -/
def spspQuote (destType : DestinationType)
    (remoteFromSource remoteFromDest : String → Option String)
    (sourceAmount destinationAmount : Option String) : Except QuoteError Quote :=
  match sourceAmount, destinationAmount with
  | some s, none =>
    match destType with
    | DestinationType.LOCAL => Except.ok ⟨s, s⟩
    | DestinationType.REMOTE =>
      match remoteFromSource s with
      | some d => Except.ok ⟨s, d⟩
      | none => Except.error QuoteError.QuoteUnavailableError
  | none, some d =>
    match destType with
    | DestinationType.LOCAL => Except.ok ⟨d, d⟩
    | DestinationType.REMOTE =>
      match remoteFromDest d with
      | some s => Except.ok ⟨s, d⟩
      | none => Except.error QuoteError.QuoteUnavailableError
  | some _, some _ => Except.error QuoteError.InvalidQuoteRequestError
  | none, none => Except.error QuoteError.InvalidQuoteRequestError

/-- The quote controller action: it resolves the destination and forwards the
body amounts to spsp.quote unchanged (the source performs no validation of its
own). -/
def quoteAction (destType : DestinationType)
    (remoteFromSource remoteFromDest : String → Option String)
    (source_amount destination_amount : Option String) : Except QuoteError Quote :=
  spspQuote destType remoteFromSource remoteFromDest source_amount
    destination_amount

/-- Modelled from the spec: Payment.getUserPayments (api/src/models/payment.js,
not under src/) is an offset/limit paginated read of the user's payments
returning the page rows and the total row count. -/
def getUserPayments (db : List PaymentRow) (uid : Nat) (page limit : Nat) :
    List PaymentRow × Nat :=
  let rows := db.filter
    (fun r => r.source_user == some uid || r.destination_user == some uid)
  ((rows.drop ((page - 1) * limit)).take limit, rows.length)

/-- Response of the getHistory controller action. -/
structure HistoryResult where
  list : List PaymentRow
  totalPages : Nat

/-- The getHistory controller action: list is the fetched page and totalPages
is Math.ceil(count / limit), which for a natural count and a positive natural
limit equals (count + limit - 1) / limit. -/
def getHistory (db : List PaymentRow) (uid : Nat) (page limit : Nat) :
    HistoryResult :=
  ⟨(getUserPayments db uid page limit).1,
   ((getUserPayments db uid page limit).2 + limit - 1) / limit⟩

/-- Arguments of one putResource execution, apart from the shared execution
condition. -/
structure ExecArgs where
  sessionUid : Nat
  rawId : String
  body : PutBody
  destAccountUri : String
  transferUuid : String
deriving DecidableEq

/-- Database effect of a single putResource execution whose transfer resolved
to condition c. -/
def execStep (db : List PaymentRow) (c : String) (e : ExecArgs) :
    List PaymentRow :=
  (putResourceAction db e.sessionUid e.rawId e.body e.destAccountUri
    (some ⟨e.transferUuid, c⟩)).db

/-- Repeated putResource executions whose transfers all resolve to the same
execution condition. -/
def runExecs (db : List PaymentRow) (c : String) (es : List ExecArgs) :
    List PaymentRow :=
  es.foldl (fun d e => execStep d c e) db

/-- Concrete lowercase UUID used in witnesses. -/
def demoUuid : String := "9efa70ec-08b9-11e6-b512-3e1d05defe78"

/-- Concrete uppercase UUID used in counterexamples. -/
def demoUuidUpper : String := "9EFA70EC-08B9-11E6-B512-3E1D05DEFE78"

/-- Concrete PUT /payments/:id body used in witnesses. -/
def demoPutBody : PutBody :=
  ⟨none, some 999, some "9", some "9", some "hi", some "bob@wallet.example"⟩

/-- Concrete POST /receivers/:username body used in witnesses. -/
def demoSetupBody : SetupBody :=
  ⟨some "alice@other.example", some "thanks", some "10"⟩

/-- Concrete user table used in witnesses. -/
def demoUsers : List User := [⟨2, "bob"⟩]

/-- Characterisation of matchesCond. -/
theorem matchesCond_iff (c : String) (r : PaymentRow) :
    matchesCond c r = true ↔ r.execution_condition = some c := by
  simp [matchesCond]

/-- Unfolding of countCond on a cons cell. -/
theorem countCond_cons (x : PaymentRow) (xs : List PaymentRow) (c : String) :
    countCond (x :: xs) c =
      (if matchesCond c x = true then 1 else 0) + countCond xs c := by
  by_cases h : matchesCond c x = true
  · simp [countCond, List.filter_cons, h, Nat.add_comm]
  · simp [countCond, List.filter_cons, h]

/-- countCond distributes over append. -/
theorem countCond_append (db₁ db₂ : List PaymentRow) (c : String) :
    countCond (db₁ ++ db₂) c = countCond db₁ c + countCond db₂ c := by
  simp [countCond, List.filter_append]

/-- Updating the first row carrying condition c with a function that preserves
whether a c-row also carries condition c' does not change the number of rows
carrying c'. -/
theorem countCond_updateFirst (db : List PaymentRow) (c c' : String)
    (f : PaymentRow → PaymentRow)
    (hf : ∀ r, matchesCond c r = true → matchesCond c' (f r) = matchesCond c' r) :
    countCond (updateFirst db c f) c' = countCond db c' := by
  induction db with
  | nil => rfl
  | cons x rest ih =>
    by_cases h : matchesCond c x = true
    · simp only [updateFirst, if_pos h, countCond_cons, hf x h]
    · simp only [updateFirst, if_neg h, countCond_cons, ih]

/-- A database in which no row carries condition c has countCond zero. -/
theorem countCond_of_findOne_none {db : List PaymentRow} {c : String}
    (h : findOne db c = none) : countCond db c = 0 := by
  induction db with
  | nil => rfl
  | cons x rest ih =>
    by_cases h' : matchesCond c x = true
    · rw [findOne, List.find?_cons_of_pos _ h'] at h
      exact absurd h (by simp)
    · rw [findOne, List.find?_cons_of_neg _ h'] at h
      rw [countCond_cons, if_neg h', ih h]

/-- A database in which findOne finds a row carrying c has at least one such
row. -/
theorem one_le_countCond_of_findOne_some {db : List PaymentRow} {c : String}
    {r : PaymentRow} (h : findOne db c = some r) : 1 ≤ countCond db c := by
  induction db with
  | nil => exact absurd h (by simp [findOne])
  | cons x rest ih =>
    by_cases h' : matchesCond c x = true
    · rw [countCond_cons, if_pos h']
      omega
    · rw [findOne, List.find?_cons_of_neg _ h'] at h
      rw [countCond_cons, if_neg h']
      have := ih h
      omega

/-- The row findOne finds is, after update, a member of the updated database. -/
theorem updateFirst_mem_of_findOne {db : List PaymentRow} {c : String}
    {f : PaymentRow → PaymentRow} {r0 : PaymentRow} (h : findOne db c = some r0) :
    f r0 ∈ updateFirst db c f := by
  induction db with
  | nil => exact absurd h (by simp [findOne])
  | cons x rest ih =>
    by_cases h' : matchesCond c x = true
    · rw [findOne, List.find?_cons_of_pos _ h'] at h
      injection h with h
      subst h
      simp only [updateFirst, if_pos h']
      exact List.mem_cons_self _ _
    · rw [findOne, List.find?_cons_of_neg _ h'] at h
      simp only [updateFirst, if_neg h']
      exact List.mem_cons_of_mem _ (ih h)

/-- Every row of the updated database is either an original row or the image of
an original row carrying the condition. -/
theorem mem_of_mem_updateFirst {db : List PaymentRow} {c : String}
    {f : PaymentRow → PaymentRow} {r' : PaymentRow}
    (h : r' ∈ updateFirst db c f) :
    r' ∈ db ∨ ∃ r ∈ db, matchesCond c r = true ∧ r' = f r := by
  induction db with
  | nil => exact absurd h (by simp [updateFirst])
  | cons x rest ih =>
    by_cases h' : matchesCond c x = true
    · simp only [updateFirst, if_pos h'] at h
      rcases List.mem_cons.mp h with h1 | h1
      · exact Or.inr ⟨x, List.mem_cons_self _ _, h', h1⟩
      · exact Or.inl (List.mem_cons_of_mem _ h1)
    · simp only [updateFirst, if_neg h'] at h
      rcases List.mem_cons.mp h with h1 | h1
      · subst h1
        exact Or.inl (List.mem_cons_self _ _)
      · rcases ih h1 with h2 | ⟨r, hr, hm, he⟩
        · exact Or.inl (List.mem_cons_of_mem _ h2)
        · exact Or.inr ⟨r, List.mem_cons_of_mem _ hr, hm, he⟩

/-- Every original row either survives the update untouched, or it carried the
condition and some original row carrying the condition survives as its updated
image. -/
theorem updateFirst_keeps {db : List PaymentRow} {c : String}
    {f : PaymentRow → PaymentRow} :
    ∀ r ∈ db, r ∈ updateFirst db c f ∨
      (matchesCond c r = true ∧
        ∃ r0 ∈ db, matchesCond c r0 = true ∧ f r0 ∈ updateFirst db c f) := by
  induction db with
  | nil =>
    intro r h
    exact absurd h (by simp)
  | cons x rest ih =>
    intro r hr
    by_cases h' : matchesCond c x = true
    · simp only [updateFirst, if_pos h']
      rcases List.mem_cons.mp hr with h1 | h1
      · subst h1
        exact Or.inr ⟨h', r, List.mem_cons_self _ _, h', List.mem_cons_self _ _⟩
      · exact Or.inl (List.mem_cons_of_mem _ h1)
    · simp only [updateFirst, if_neg h']
      rcases List.mem_cons.mp hr with h1 | h1
      · subst h1
        exact Or.inl (List.mem_cons_self _ _)
      · rcases ih r h1 with h2 | ⟨hm, r0, hr0, hm0, hf0⟩
        · exact Or.inl (List.mem_cons_of_mem _ h2)
        · exact Or.inr
            ⟨hm, r0, List.mem_cons_of_mem _ hr0, hm0, List.mem_cons_of_mem _ hf0⟩

/-- Merging a candidate set into a fresh row yields exactly the candidate
values. -/
theorem overrideField_none_right {α : Type} (o : Option α) :
    overrideField o none = o := by
  cases o <;> rfl

/-- Defining bounds of the natural ceiling division (cnt + l - 1) / l. -/
theorem ceil_div_bounds (cnt l : Nat) (hl : 0 < l) :
    cnt ≤ l * ((cnt + l - 1) / l) ∧ l * ((cnt + l - 1) / l) < cnt + l := by
  have h1 := Nat.div_add_mod (cnt + l - 1) l
  have h2 : (cnt + l - 1) % l < l := Nat.mod_lt _ hl
  obtain ⟨k, hk⟩ : ∃ k, l * ((cnt + l - 1) / l) = k := ⟨_, rfl⟩
  rw [hk] at h1 ⊢
  omega

/-- Database effect of putResource when spsp.pay succeeded: the upsert keyed on
the transfer's execution condition, with the candidate fields of the source. -/
theorem putResourceAction_db_some (db : List PaymentRow) (su : Nat)
    (rid : String) (b : PutBody) (dest : String) (tr : PayResult)
    (hid : isUuid rid = true) :
    (putResourceAction db su rid b dest (some tr)).db =
      execDb db
        (execFields su dest b.sourceAmount b.destinationAmount b.message
          tr.uuid tr.executionCondition)
        tr.executionCondition := by
  simp [putResourceAction, hid, bodyWithAuth]

/-- An invalid id URI parameter leaves the database untouched. -/
theorem putResourceAction_db_invalid (db : List PaymentRow) (su : Nat)
    (rid : String) (b : PutBody) (dest : String) (payo : Option PayResult)
    (hid : isUuid rid = false) :
    (putResourceAction db su rid b dest payo).db = db := by
  simp [putResourceAction, hid]

/-- A failed spsp.pay leaves the database untouched. -/
theorem putResourceAction_db_payfail (db : List PaymentRow) (su : Nat)
    (rid : String) (b : PutBody) (dest : String) :
    (putResourceAction db su rid b dest none).db = db := by
  by_cases hid : isUuid rid = true <;> simp [putResourceAction, hid]

/-- One putResource execution: given at most one row for the executed
condition, afterwards exactly one row carries it, and rows of every other
condition are untouched. -/
theorem exec_step_count (db : List PaymentRow) (e : ExecArgs) (c : String)
    (hid : isUuid e.rawId = true) :
    (countCond db c ≤ 1 → countCond (execStep db c e) c = 1)
    ∧ ∀ c', c' ≠ c → countCond (execStep db c e) c' = countCond db c' := by
  rw [execStep,
    putResourceAction_db_some db e.sessionUid e.rawId e.body e.destAccountUri
      ⟨e.transferUuid, c⟩ hid]
  cases hfind : findOne db c with
  | some r0 =>
    simp only [execDb, hfind]
    constructor
    · intro h1
      rw [countCond_updateFirst db c c _ (fun r hr => by
        rw [hr]
        simp [matchesCond, setDataExternal, execFields, overrideField])]
      have := one_le_countCond_of_findOne_some hfind
      omega
    · intro c' hc'
      apply countCond_updateFirst
      intro r hr
      have h2 : r.execution_condition = some c := (matchesCond_iff c r).mp hr
      simp [matchesCond, setDataExternal, execFields, overrideField, h2]
  | none =>
    simp only [execDb, hfind]
    constructor
    · intro _
      rw [countCond_append, countCond_of_findOne_none hfind]
      simp [countCond, matchesCond, setDataExternal, execFields, overrideField]
    · intro c' hc'
      rw [countCond_append]
      have hrow :
          matchesCond c'
            (setDataExternal PaymentRow.empty
              (execFields e.sessionUid e.destAccountUri e.body.sourceAmount
                e.body.destinationAmount e.body.message e.transferUuid c)) =
            false := by
        simp [matchesCond, setDataExternal, execFields, overrideField]
        exact fun h => hc' h.symm
      rw [countCond_cons, if_neg (by simp [hrow])]
      rfl

/-- Unfolding of runExecs on a cons cell. -/
theorem runExecs_cons (db : List PaymentRow) (c : String) (e : ExecArgs)
    (es : List ExecArgs) :
    runExecs db c (e :: es) = runExecs (execStep db c e) c es := rfl

/-- Once exactly one row carries the condition, any further executions with the
same condition keep it at exactly one row and touch no other condition. -/
theorem runExecs_aux (c : String) (es : List ExecArgs) :
    ∀ db, (∀ e ∈ es, isUuid e.rawId = true) → countCond db c = 1 →
      countCond (runExecs db c es) c = 1 ∧
      ∀ c', c' ≠ c → countCond (runExecs db c es) c' = countCond db c' := by
  induction es with
  | nil =>
    intro db _ h1
    exact ⟨h1, fun c' _ => rfl⟩
  | cons e es ih =>
    intro db hall h1
    rw [runExecs_cons]
    have hid : isUuid e.rawId = true := hall e (List.mem_cons_self _ _)
    have hstep := exec_step_count db e c hid
    have h2 : countCond (execStep db c e) c = 1 := hstep.1 (by omega)
    obtain ⟨ha, hb⟩ :=
      ih (execStep db c e) (fun x hx => hall x (List.mem_cons_of_mem _ hx)) h2
    refine ⟨ha, fun c' hc' => ?_⟩
    rw [hb c' hc', hstep.2 c' hc']

/-- C1: every putResource execution looks up the Payment row keyed by the
transfer's execution condition before writing and updates it in place when
present (otherwise inserts one fresh row), so any positive number of
successful executions with the same condition leaves exactly one row for that
condition, and per-condition uniqueness is kept: rows of every other
condition are exactly the original ones. -/
theorem exec_idempotent_by_condition (c : String) (e : ExecArgs)
    (es : List ExecArgs) (db : List PaymentRow)
    (hids : ∀ x ∈ e :: es, isUuid x.rawId = true)
    (h1 : countCond db c ≤ 1) :
    countCond (runExecs db c (e :: es)) c = 1 ∧
    ∀ c', c' ≠ c → countCond (runExecs db c (e :: es)) c' = countCond db c' := by
  rw [runExecs_cons]
  have hid := hids e (List.mem_cons_self _ _)
  have hstep := exec_step_count db e c hid
  have h2 := hstep.1 h1
  obtain ⟨ha, hb⟩ :=
    runExecs_aux c es (execStep db c e)
      (fun x hx => hids x (List.mem_cons_of_mem _ hx)) h2
  refine ⟨ha, fun c' hc' => ?_⟩
  rw [hb c' hc', hstep.2 c' hc']

/-- Witness for C1: two concrete executions with the same condition on an
empty database leave exactly one row for that condition. -/
theorem exec_idempotent_by_condition_witness :
    countCond
      (runExecs [] "cond-1"
        [⟨1, demoUuid, demoPutBody, "https://wallet.example/bob", "transfer-1"⟩,
         ⟨3, demoUuid, demoPutBody, "https://wallet.example/bob", "transfer-2"⟩])
      "cond-1" = 1 ∧
    ∀ c', c' ≠ "cond-1" →
      countCond
        (runExecs [] "cond-1"
          [⟨1, demoUuid, demoPutBody, "https://wallet.example/bob", "transfer-1"⟩,
           ⟨3, demoUuid, demoPutBody, "https://wallet.example/bob", "transfer-2"⟩])
        c' = countCond [] c' :=
  exec_idempotent_by_condition "cond-1"
    ⟨1, demoUuid, demoPutBody, "https://wallet.example/bob", "transfer-1"⟩
    [⟨3, demoUuid, demoPutBody, "https://wallet.example/bob", "transfer-2"⟩]
    [] (by decide) (by decide)

/-- C2: across every Payment-writing operation of the controller (putResource
executions and setup requests), row states stay within pending/success — the
code never writes the failed state, so no row enters or leaves failed — and a
row that reached success keeps a success row carrying its execution condition:
the only state change any operation applies to an existing row is
pending-to-success (putResource rewrites the found row's state to success),
and setup only inserts fresh pending rows. -/
theorem payment_state_transitions (db : List PaymentRow) (op : Op)
    (hdb : ∀ r ∈ db,
      r.state = some PaymentState.pending ∨ r.state = some PaymentState.success) :
    (∀ r ∈ applyOp db op,
      r.state = some PaymentState.pending ∨ r.state = some PaymentState.success)
    ∧ ∀ r ∈ db, r.state = some PaymentState.success →
        ∃ r' ∈ applyOp db op,
          r'.execution_condition = r.execution_condition ∧
          r'.state = some PaymentState.success := by
  cases op with
  | exec su rawId b dest payo =>
    by_cases hid : isUuid rawId = true
    · cases payo with
      | none =>
        simp only [applyOp, putResourceAction_db_payfail]
        exact ⟨hdb, fun r hr hs => ⟨r, hr, rfl, hs⟩⟩
      | some tr =>
        rw [applyOp, putResourceAction_db_some db su rawId b dest tr hid]
        cases hfind : findOne db tr.executionCondition with
        | some r0 =>
          simp only [execDb, hfind]
          constructor
          · intro r hr
            rcases mem_of_mem_updateFirst hr with h1 | ⟨r2, _, _, he⟩
            · exact hdb r h1
            · right
              rw [he]
              rfl
          · intro r hr hs
            rcases updateFirst_keeps r hr with h1 | ⟨hm, r0', hr0', hm0', hf0'⟩
            · exact ⟨r, h1, rfl, hs⟩
            · refine ⟨_, hf0', ?_, rfl⟩
              have h2 := (matchesCond_iff _ r).mp hm
              rw [h2]
              rfl
        | none =>
          simp only [execDb, hfind]
          constructor
          · intro r hr
            rcases List.mem_append.mp hr with h1 | h1
            · exact hdb r h1
            · rw [List.mem_singleton.mp h1]
              right
              rfl
          · intro r hr hs
            exact ⟨r, List.mem_append_left _ hr, rfl, hs⟩
    · have hdbeq : applyOp db (Op.exec su rawId b dest payo) = db := by
        simp only [applyOp]
        exact putResourceAction_db_invalid db su rawId b dest payo
          (Bool.eq_false_iff.mpr hid)
      rw [hdbeq]
      exact ⟨hdb, fun r hr hs => ⟨r, hr, rfl, hs⟩⟩
  | setup users username b fc cf =>
    cases hfind : users.find? (fun u => u.username == username) with
    | none =>
      simp only [applyOp, setupAction, hfind]
      exact ⟨hdb, fun r hr hs => ⟨r, hr, rfl, hs⟩⟩
    | some u =>
      cases cf with
      | true =>
        simp only [applyOp, setupAction, hfind, if_true]
        exact ⟨hdb, fun r hr hs => ⟨r, hr, rfl, hs⟩⟩
      | false =>
        simp only [applyOp, setupAction, hfind, if_false]
        constructor
        · intro r hr
          rcases List.mem_append.mp hr with h1 | h1
          · exact hdb r h1
          · rw [List.mem_singleton.mp h1]
            left
            rfl
        · intro r hr hs
          exact ⟨r, List.mem_append_left _ hr, rfl, hs⟩

/-- Witness for C2: a setup request against a database holding a success row
keeps every state in pending/success and keeps the success row. -/
theorem payment_state_transitions_witness :
    (∀ r ∈ applyOp
        [⟨none, some 1, none, some 2, none, some "10", some "10", some "t0",
          some "hello", some "cond-0", some PaymentState.success⟩]
        (Op.setup demoUsers "bob" demoSetupBody "cond-2" false),
      r.state = some PaymentState.pending ∨ r.state = some PaymentState.success)
    ∧ ∀ r ∈ [(⟨none, some 1, none, some 2, none, some "10", some "10", some "t0",
          some "hello", some "cond-0", some PaymentState.success⟩ : PaymentRow)],
        r.state = some PaymentState.success →
        ∃ r' ∈ applyOp
            [⟨none, some 1, none, some 2, none, some "10", some "10", some "t0",
              some "hello", some "cond-0", some PaymentState.success⟩]
            (Op.setup demoUsers "bob" demoSetupBody "cond-2" false),
          r'.execution_condition = r.execution_condition ∧
          r'.state = some PaymentState.success :=
  payment_state_transitions
    [⟨none, some 1, none, some 2, none, some "10", some "10", some "t0",
      some "hello", some "cond-0", some PaymentState.success⟩]
    (Op.setup demoUsers "bob" demoSetupBody "cond-2" false) (by decide)

/-- Counterexample for C3 as stated: the receiver request-setup path writes a
pending row with message "thanks" and destination_amount "10" keyed by
condition cond-1; a sender then executes a transfer resolving to cond-1 with
body message "hi" and destination amount "9". The single resulting row is
success, but the receiver-side message and destination_amount were overwritten
by the sender-side body values: a receiver-side field is lost. -/
theorem setup_then_exec_receiver_fields_lost :
    ((putResourceAction
        (setupAction [] demoUsers "bob" demoSetupBody "cond-1" false).db 1
        demoUuid demoPutBody "https://wallet.example/bob"
        (some ⟨"transfer-1", "cond-1"⟩)).db.map PaymentRow.message
      = [some "hi"])
    ∧ ((putResourceAction
        (setupAction [] demoUsers "bob" demoSetupBody "cond-1" false).db 1
        demoUuid demoPutBody "https://wallet.example/bob"
        (some ⟨"transfer-1", "cond-1"⟩)).db.map PaymentRow.message
      ≠ [some "thanks"])
    ∧ ((putResourceAction
        (setupAction [] demoUsers "bob" demoSetupBody "cond-1" false).db 1
        demoUuid demoPutBody "https://wallet.example/bob"
        (some ⟨"transfer-1", "cond-1"⟩)).db.map PaymentRow.destination_amount
      = [some "9"])
    ∧ ((putResourceAction
        (setupAction [] demoUsers "bob" demoSetupBody "cond-1" false).db 1
        demoUuid demoPutBody "https://wallet.example/bob"
        (some ⟨"transfer-1", "cond-1"⟩)).db.map PaymentRow.state
      = [some PaymentState.success]) := by
  decide

/-- C3 (amended): when setup created the pending row for condition cond and a
sender then executes a transfer resolving to cond, the single resulting row is
success and merges both sides: the receiver-side columns the execute path does
not resubmit (destination_user, source_account) are kept, the sender-side
columns (source_user, transfer, destination_account, execution_condition) are
set, and the columns the execute path resubmits (source_amount,
destination_amount, message) take the sender-supplied body values when
supplied, retaining the receiver-side values only when the sender's body omits
them. -/
theorem setup_then_exec_merge (users : List User) (username : String)
    (sb : SetupBody) (cond : String) (usr : User) (su : Nat) (rid : String)
    (eb : PutBody) (dest : String) (tuuid : String)
    (hu : users.find? (fun x => x.username == username) = some usr)
    (hid : isUuid rid = true) :
    ∃ r,
      (putResourceAction (setupAction [] users username sb cond false).db su rid
        eb dest (some ⟨tuuid, cond⟩)).db = [r]
      ∧ r.state = some PaymentState.success
      ∧ r.destination_user = some usr.id
      ∧ r.source_account = sb.sender_identifier
      ∧ r.source_user = some su
      ∧ r.transfer = some tuuid
      ∧ r.execution_condition = some cond
      ∧ r.destination_account = some dest
      ∧ r.source_amount = eb.sourceAmount
      ∧ r.message = overrideField eb.message sb.memo
      ∧ r.destination_amount = overrideField eb.destinationAmount sb.amount := by
  have hdb1 : (setupAction [] users username sb cond false).db =
      [setDataExternal PaymentRow.empty
        (setupFields sb.sender_identifier usr.id sb.amount sb.memo cond)] := by
    simp [setupAction, hu]
  rw [hdb1, putResourceAction_db_some _ su rid eb dest ⟨tuuid, cond⟩ hid]
  have hm1 : matchesCond cond
      (setDataExternal PaymentRow.empty
        (setupFields sb.sender_identifier usr.id sb.amount sb.memo cond)) =
      true := by
    simp [matchesCond, setDataExternal, setupFields, PaymentRow.empty,
      overrideField]
  have hfind : findOne
      [setDataExternal PaymentRow.empty
        (setupFields sb.sender_identifier usr.id sb.amount sb.memo cond)]
      cond =
      some (setDataExternal PaymentRow.empty
        (setupFields sb.sender_identifier usr.id sb.amount sb.memo cond)) := by
    rw [findOne, List.find?_cons_of_pos _ hm1]
  simp only [execDb, hfind]
  refine ⟨setDataExternal
      (setDataExternal PaymentRow.empty
        (setupFields sb.sender_identifier usr.id sb.amount sb.memo cond))
      (execFields su dest eb.sourceAmount eb.destinationAmount eb.message
        tuuid cond),
    ?_, rfl, rfl, ?_, rfl, rfl, rfl, rfl, ?_, ?_, ?_⟩
  · simp only [updateFirst]
    rw [if_pos hm1]
  · simp [setDataExternal, execFields, setupFields, PaymentRow.empty,
      overrideField]
    cases sb.sender_identifier <;> rfl
  · simp [setDataExternal, execFields, setupFields, PaymentRow.empty,
      overrideField]
    cases eb.sourceAmount <;> rfl
  · simp [setDataExternal, execFields, setupFields, PaymentRow.empty,
      overrideField_none_right]
  · simp [setDataExternal, execFields, setupFields, PaymentRow.empty,
      overrideField_none_right]

/-- Witness for the amended C3 theorem at a concrete setup-then-execute run. -/
theorem setup_then_exec_merge_witness :
    ∃ r,
      (putResourceAction
        (setupAction [] demoUsers "bob" demoSetupBody "cond-1" false).db 1
        demoUuid demoPutBody "https://wallet.example/bob"
        (some ⟨"transfer-1", "cond-1"⟩)).db = [r]
      ∧ r.state = some PaymentState.success
      ∧ r.destination_user = some (User.mk 2 "bob").id
      ∧ r.source_account = demoSetupBody.sender_identifier
      ∧ r.source_user = some 1
      ∧ r.transfer = some "transfer-1"
      ∧ r.execution_condition = some "cond-1"
      ∧ r.destination_account = some "https://wallet.example/bob"
      ∧ r.source_amount = demoPutBody.sourceAmount
      ∧ r.message = overrideField demoPutBody.message demoSetupBody.memo
      ∧ r.destination_amount =
          overrideField demoPutBody.destinationAmount demoSetupBody.amount :=
  setup_then_exec_merge demoUsers "bob" demoSetupBody "cond-1" ⟨2, "bob"⟩ 1
    demoUuid demoPutBody "https://wallet.example/bob" "transfer-1"
    (by decide) (by decide)

/-- C4: a quote request fails with InvalidQuoteRequestError exactly when both
amounts or neither amount is supplied; with exactly one amount supplied the
quote path never returns that error (a remote outage is surfaced as
QuoteUnavailableError instead), so no quote is returned in the
both-or-neither cases. -/
theorem quote_requires_exactly_one_amount (destType : DestinationType)
    (remoteFromSource remoteFromDest : String → Option String)
    (s d : Option String) :
    quoteAction destType remoteFromSource remoteFromDest s d =
        Except.error QuoteError.InvalidQuoteRequestError
      ↔ ((s = none ∧ d = none) ∨ (s ≠ none ∧ d ≠ none)) := by
  cases s with
  | none =>
    cases d with
    | none => simp [quoteAction, spspQuote]
    | some dv =>
      cases destType with
      | LOCAL => simp [quoteAction, spspQuote]
      | REMOTE =>
        cases hq : remoteFromDest dv with
        | none => simp [quoteAction, spspQuote, hq]
        | some sv => simp [quoteAction, spspQuote, hq]
  | some sv =>
    cases d with
    | none =>
      cases destType with
      | LOCAL => simp [quoteAction, spspQuote]
      | REMOTE =>
        cases hq : remoteFromSource sv with
        | none => simp [quoteAction, spspQuote, hq]
        | some dv => simp [quoteAction, spspQuote, hq]
    | some dv => simp [quoteAction, spspQuote]

/-- C5: every successful quote for a LOCAL destination is the identity quote:
its source amount equals its destination amount. -/
theorem local_quote_identity
    (remoteFromSource remoteFromDest : String → Option String)
    (s d : Option String) (q : Quote)
    (h : quoteAction DestinationType.LOCAL remoteFromSource remoteFromDest s d =
      Except.ok q) :
    q.sourceAmount = q.destinationAmount := by
  cases q with
  | mk qs qd =>
    cases s <;> cases d <;> simp [quoteAction, spspQuote] at h
    all_goals obtain ⟨h1, h2⟩ := h
    all_goals subst h1
    all_goals subst h2
    all_goals rfl

/-- Witness for C5: the LOCAL quote for source amount 12 is 12 to 12. -/
theorem local_quote_identity_witness :
    (Quote.mk "12" "12").sourceAmount = (Quote.mk "12" "12").destinationAmount :=
  local_quote_identity (fun _ => none) (fun _ => none) (some "12") none
    (Quote.mk "12" "12") rfl

/-- C6: a setup request whose destination username matches no user answers 404
at once, lets no error escape, returns no body, and creates no Payment row. -/
theorem setup_unknown_receiver (db : List PaymentRow) (users : List User)
    (username : String) (b : SetupBody) (freshCond : String)
    (createFails : Bool)
    (h : users.find? (fun u => u.username == username) = none) :
    (setupAction db users username b freshCond createFails).status = some 404
    ∧ (setupAction db users username b freshCond createFails).db = db
    ∧ (setupAction db users username b freshCond createFails).body = none
    ∧ (setupAction db users username b freshCond createFails).threw = false := by
  simp [setupAction, h]

/-- Witness for C6: requesting setup for the unknown username carol. -/
theorem setup_unknown_receiver_witness :
    (setupAction [] demoUsers "carol" demoSetupBody "cond-9" false).status =
        some 404
    ∧ (setupAction [] demoUsers "carol" demoSetupBody "cond-9" false).db = []
    ∧ (setupAction [] demoUsers "carol" demoSetupBody "cond-9" false).body = none
    ∧ (setupAction [] demoUsers "carol" demoSetupBody "cond-9" false).threw =
        false :=
  setup_unknown_receiver [] demoUsers "carol" demoSetupBody "cond-9" false
    (by decide)

/-- C7: within one putResource request the prepare phase precedes the fulfill
phase, and the fulfill phase precedes both the Payment record upsert and the
socket publish; the record write and the publish only ever occur once the
transfer has completed. -/
theorem exec_event_ordering (db : List PaymentRow) (su : Nat) (rawId : String)
    (b : PutBody) (dest : String) (payo : Option PayResult) :
    (Ev.fulfill ∈ (putResourceAction db su rawId b dest payo).trace →
      Ev.prepare ∈ (putResourceAction db su rawId b dest payo).trace ∧
      (putResourceAction db su rawId b dest payo).trace.indexOf Ev.prepare <
        (putResourceAction db su rawId b dest payo).trace.indexOf Ev.fulfill)
    ∧ (Ev.upsert ∈ (putResourceAction db su rawId b dest payo).trace →
      Ev.fulfill ∈ (putResourceAction db su rawId b dest payo).trace ∧
      (putResourceAction db su rawId b dest payo).trace.indexOf Ev.fulfill <
        (putResourceAction db su rawId b dest payo).trace.indexOf Ev.upsert)
    ∧ (Ev.notify ∈ (putResourceAction db su rawId b dest payo).trace →
      Ev.fulfill ∈ (putResourceAction db su rawId b dest payo).trace ∧
      (putResourceAction db su rawId b dest payo).trace.indexOf Ev.fulfill <
        (putResourceAction db su rawId b dest payo).trace.indexOf Ev.notify) := by
  have htr : (putResourceAction db su rawId b dest payo).trace = [] ∨
      (putResourceAction db su rawId b dest payo).trace = payTraceFailed ∨
      (putResourceAction db su rawId b dest payo).trace =
        payTraceSuccess ++ [Ev.upsert, Ev.notify] := by
    by_cases hid : isUuid rawId = true
    · cases payo <;> simp [putResourceAction, hid]
    · simp [putResourceAction, hid]
  rcases htr with h | h | h <;> rw [h] <;> decide

/-- Witness for C7: in a concrete successful execution the upsert happens and
lies strictly after the fulfill phase. -/
theorem exec_event_ordering_witness :
    Ev.upsert ∈ (putResourceAction [] 1 demoUuid demoPutBody
        "https://wallet.example/bob" (some ⟨"transfer-1", "cond-1"⟩)).trace
    ∧ (Ev.fulfill ∈ (putResourceAction [] 1 demoUuid demoPutBody
          "https://wallet.example/bob" (some ⟨"transfer-1", "cond-1"⟩)).trace
      ∧ (putResourceAction [] 1 demoUuid demoPutBody "https://wallet.example/bob"
          (some ⟨"transfer-1", "cond-1"⟩)).trace.indexOf Ev.fulfill <
        (putResourceAction [] 1 demoUuid demoPutBody "https://wallet.example/bob"
          (some ⟨"transfer-1", "cond-1"⟩)).trace.indexOf Ev.upsert) :=
  ⟨by decide,
    (exec_event_ordering [] 1 demoUuid demoPutBody "https://wallet.example/bob"
      (some ⟨"transfer-1", "cond-1"⟩)).2.1 (by decide)⟩

/-- C8: for a positive limit, a history page holds at most limit rows and
totalPages is the ceiling of the total row count divided by limit: it equals
(count + limit - 1) / limit, which is exactly pinned between count and
count + limit when multiplied by limit. -/
theorem history_page_and_total_pages (db : List PaymentRow)
    (uid page limit : Nat) (hl : 0 < limit) :
    (getHistory db uid page limit).list.length ≤ limit
    ∧ (getHistory db uid page limit).totalPages =
        ((getUserPayments db uid page limit).2 + limit - 1) / limit
    ∧ (getUserPayments db uid page limit).2 ≤
        (getHistory db uid page limit).totalPages * limit
    ∧ (getHistory db uid page limit).totalPages * limit <
        (getUserPayments db uid page limit).2 + limit := by
  have hb := ceil_div_bounds (getUserPayments db uid page limit).2 limit hl
  refine ⟨?_, rfl, ?_, ?_⟩
  · simp only [getHistory, getUserPayments]
    apply List.length_take_le
  · have h1 : (getHistory db uid page limit).totalPages =
        ((getUserPayments db uid page limit).2 + limit - 1) / limit := rfl
    rw [h1, Nat.mul_comm]
    exact hb.1
  · have h1 : (getHistory db uid page limit).totalPages =
        ((getUserPayments db uid page limit).2 + limit - 1) / limit := rfl
    rw [h1, Nat.mul_comm]
    exact hb.2

/-- Witness for C8: page 1 with limit 2 over a three-row database returns at
most two rows and two total pages. -/
theorem history_page_and_total_pages_witness :
    (getHistory
        [⟨none, some 1, none, none, none, some "1", some "1", none, none,
          some "a", some PaymentState.success⟩,
         ⟨none, some 1, none, none, none, some "2", some "2", none, none,
          some "b", some PaymentState.success⟩,
         ⟨none, none, none, some 1, none, some "3", some "3", none, none,
          some "c", some PaymentState.pending⟩] 1 1 2).list.length ≤ 2
    ∧ (getHistory
        [⟨none, some 1, none, none, none, some "1", some "1", none, none,
          some "a", some PaymentState.success⟩,
         ⟨none, some 1, none, none, none, some "2", some "2", none, none,
          some "b", some PaymentState.success⟩,
         ⟨none, none, none, some 1, none, some "3", some "3", none, none,
          some "c", some PaymentState.pending⟩] 1 1 2).totalPages =
        ((getUserPayments
        [⟨none, some 1, none, none, none, some "1", some "1", none, none,
          some "a", some PaymentState.success⟩,
         ⟨none, some 1, none, none, none, some "2", some "2", none, none,
          some "b", some PaymentState.success⟩,
         ⟨none, none, none, some 1, none, some "3", some "3", none, none,
          some "c", some PaymentState.pending⟩] 1 1 2).2 + 2 - 1) / 2
    ∧ (getUserPayments
        [⟨none, some 1, none, none, none, some "1", some "1", none, none,
          some "a", some PaymentState.success⟩,
         ⟨none, some 1, none, none, none, some "2", some "2", none, none,
          some "b", some PaymentState.success⟩,
         ⟨none, none, none, some 1, none, some "3", some "3", none, none,
          some "c", some PaymentState.pending⟩] 1 1 2).2 ≤
        (getHistory
        [⟨none, some 1, none, none, none, some "1", some "1", none, none,
          some "a", some PaymentState.success⟩,
         ⟨none, some 1, none, none, none, some "2", some "2", none, none,
          some "b", some PaymentState.success⟩,
         ⟨none, none, none, some 1, none, some "3", some "3", none, none,
          some "c", some PaymentState.pending⟩] 1 1 2).totalPages * 2
    ∧ (getHistory
        [⟨none, some 1, none, none, none, some "1", some "1", none, none,
          some "a", some PaymentState.success⟩,
         ⟨none, some 1, none, none, none, some "2", some "2", none, none,
          some "b", some PaymentState.success⟩,
         ⟨none, none, none, some 1, none, some "3", some "3", none, none,
          some "c", some PaymentState.pending⟩] 1 1 2).totalPages * 2 <
        (getUserPayments
        [⟨none, some 1, none, none, none, some "1", some "1", none, none,
          some "a", some PaymentState.success⟩,
         ⟨none, some 1, none, none, none, some "2", some "2", none, none,
          some "b", some PaymentState.success⟩,
         ⟨none, none, none, some 1, none, some "3", some "3", none, none,
          some "c", some PaymentState.pending⟩] 1 1 2).2 + 2 :=
  history_page_and_total_pages
    [⟨none, some 1, none, none, none, some "1", some "1", none, none,
      some "a", some PaymentState.success⟩,
     ⟨none, some 1, none, none, none, some "2", some "2", none, none,
      some "b", some PaymentState.success⟩,
     ⟨none, none, none, some 1, none, some "3", some "3", none, none,
      some "c", some PaymentState.pending⟩] 1 1 2 (by decide)

/-- C9: when the destination user exists but persisting the pending Payment
row throws, setup catches the exception and only logs it: no error escapes,
the response body and status stay unset, and the database is unchanged — the
freshly generated condition is silently lost. -/
theorem setup_create_failure_swallowed (db : List PaymentRow)
    (users : List User) (username : String) (b : SetupBody) (freshCond : String)
    (usr : User)
    (h : users.find? (fun u => u.username == username) = some usr) :
    (setupAction db users username b freshCond true).threw = false
    ∧ (setupAction db users username b freshCond true).body = none
    ∧ (setupAction db users username b freshCond true).db = db
    ∧ (setupAction db users username b freshCond true).status = none := by
  simp [setupAction, h]

/-- Witness for C9: a failing create for the known user bob. -/
theorem setup_create_failure_swallowed_witness :
    (setupAction [] demoUsers "bob" demoSetupBody "cond-7" true).threw = false
    ∧ (setupAction [] demoUsers "bob" demoSetupBody "cond-7" true).body = none
    ∧ (setupAction [] demoUsers "bob" demoSetupBody "cond-7" true).db = []
    ∧ (setupAction [] demoUsers "bob" demoSetupBody "cond-7" true).status =
        none :=
  setup_create_failure_swallowed [] demoUsers "bob" demoSetupBody "cond-7"
    ⟨2, "bob"⟩ (by decide)

/-- Counterexample for C10 as stated: a fresh execution whose id URI parameter
is a valid uppercase UUID stores a row whose id column is unset: the
validated, lowercased request id is assigned to the request body object only
and never reaches the persisted row. -/
theorem exec_request_id_not_stored :
    ((putResourceAction [] 7 demoUuidUpper demoPutBody
        "https://wallet.example/bob" (some ⟨"transfer-2", "cond-2"⟩)).db.map
      PaymentRow.id = [none])
    ∧ isUuid demoUuidUpper = true
    ∧ ((none : Option String) ≠ some demoUuidUpper.toLower) :=
  ⟨by decide, by decide, fun h => Option.noConfusion h⟩

/-- C10 (amended): the id URI parameter is validated as a UUID (an invalid id
aborts before any write) and lowercased, but it is only assigned onto the
request body object: the persisted candidate field set excludes the id
column, so the stored row keeps the id the looked-up row already had (none
for a fresh row). The stored source_user always is the session user's id; the
source_user supplied in the request body (arbitrary here) is ignored. -/
theorem exec_stored_id_and_source_user (db : List PaymentRow) (su : Nat)
    (rid : String) (b : PutBody) (dest : String) (tuuid cond : String) :
    (isUuid rid = false →
      (putResourceAction db su rid b dest (some ⟨tuuid, cond⟩)).db = db)
    ∧ (isUuid rid = true →
      ∃ r ∈ (putResourceAction db su rid b dest (some ⟨tuuid, cond⟩)).db,
        r.execution_condition = some cond ∧ r.source_user = some su ∧
        r.id = Option.bind (findOne db cond) PaymentRow.id) := by
  constructor
  · intro h
    exact putResourceAction_db_invalid db su rid b dest _ h
  · intro hid
    rw [putResourceAction_db_some db su rid b dest ⟨tuuid, cond⟩ hid]
    cases hfind : findOne db cond with
    | none =>
      simp only [execDb, hfind]
      refine ⟨setDataExternal PaymentRow.empty
        (execFields su dest b.sourceAmount b.destinationAmount b.message
          tuuid cond), ?_, rfl, rfl, rfl⟩
      exact List.mem_append_right _ (List.mem_singleton.mpr rfl)
    | some r0 =>
      simp only [execDb, hfind]
      exact ⟨setDataExternal r0
        (execFields su dest b.sourceAmount b.destinationAmount b.message
          tuuid cond), updateFirst_mem_of_findOne hfind, rfl, rfl, rfl⟩

/-- Witness for the amended C10 theorem at a concrete fresh execution. -/
theorem exec_stored_id_and_source_user_witness :
    ∃ r ∈ (putResourceAction [] 7 demoUuidUpper demoPutBody
        "https://wallet.example/bob" (some ⟨"transfer-2", "cond-2"⟩)).db,
      r.execution_condition = some "cond-2" ∧ r.source_user = some 7 ∧
      r.id = Option.bind (findOne [] "cond-2") PaymentRow.id :=
  (exec_stored_id_and_source_user [] 7 demoUuidUpper demoPutBody
    "https://wallet.example/bob" "transfer-2" "cond-2").2 (by decide)
